import Mathlib

/-!
# Verification of the TDMA network protocol core

A shallow embedding, in Lean 4, of the core of the `tdma-network` Go
repository: the binary wire-frame codec (`pkg/protocol/tdma_frame.go`),
the slot scheduler (`internal/scheduler`), and the epoch-based slot clock,
together with theorems checking the natural-language specification
against this embedding.

Machine integers are modelled as `Nat` with explicit `% 2^w` at the points
where Go's fixed-width arithmetic wraps; Go `time.Time` / `time.Duration`
values are modelled as `Int` (nanosecond counts, far from overflow in any
scenario considered); byte slices are `List Nat` whose elements are below
256 wherever that matters; Go errors are explicit sum types.
-/

/-! ## Frame data model (`pkg/protocol/tdma_frame.go`) -/

/-- The TDMA wire frame.  Fields mirror the Go struct `TDMAFrame`:
`Header`/`Footer` are 8-byte arrays, `NodeID` a 32-byte array, `Data` a
byte slice; `SlotID`, `Length`, `FragmentID`, `CRC` are `uint32`;
`TotalFrags`, `FragIndex`, `Flags` are `uint16`.  Fixed array sizes and
width bounds are stated as hypotheses of the theorems where needed. -/
structure TDMAFrame where
  Header     : List Nat
  SlotID     : Nat
  NodeID     : List Nat
  Length     : Nat
  FragmentID : Nat
  TotalFrags : Nat
  FragIndex  : Nat
  Flags      : Nat
  Data       : List Nat
  CRC        : Nat
  Footer     : List Nat
deriving DecidableEq, Repr, Inhabited

/-- Fragment flag bits, as in the Go constants. -/
def FLAG_FRAGMENT : Nat := 0x0001
def FLAG_FIRST_FRAG : Nat := 0x0002
def FLAG_LAST_FRAG : Nat := 0x0004
def FLAG_NEED_ACK : Nat := 0x0008

/-- Header sentinel `AA 55 AA 55 AA 55 AA 55`. -/
def FRAME_HEADER : List Nat := [0xAA, 0x55, 0xAA, 0x55, 0xAA, 0x55, 0xAA, 0x55]

/-- Footer sentinel `55 AA 55 AA 55 AA 55 AA`. -/
def FRAME_FOOTER : List Nat := [0x55, 0xAA, 0x55, 0xAA, 0x55, 0xAA, 0x55, 0xAA]

/-- One step of the rolling checksum: `crc = (crc << 1) ^ b` in `uint32`
arithmetic (`calculateCRC`'s loop body). -/
def crcStep (crc b : Nat) : Nat := ((crc * 2) % 2 ^ 32) ^^^ b

/-- `calculateCRC`: folds the header bytes, then `SlotID`, `TotalFrags`,
`FragIndex`, `Flags`, then the payload bytes, starting from `0xFFFFFFFF`.
Note it reads neither `NodeID` nor `Length` nor `FragmentID`. -/
def calculateCRC (f : TDMAFrame) : Nat :=
  let c0 := f.Header.foldl crcStep 0xFFFFFFFF
  let c1 := crcStep c0 f.SlotID
  let c2 := crcStep c1 f.TotalFrags
  let c3 := crcStep c2 f.FragIndex
  let c4 := crcStep c3 f.Flags
  f.Data.foldl crcStep c4

/-- Big-endian bytes of a `uint32` (`binary.BigEndian.PutUint32`). -/
def u32Bytes (v : Nat) : List Nat :=
  [v / 2 ^ 24 % 256, v / 2 ^ 16 % 256, v / 2 ^ 8 % 256, v % 256]

/-- Big-endian bytes of a `uint16` (`binary.BigEndian.PutUint16`). -/
def u16Bytes (v : Nat) : List Nat := [v / 2 ^ 8 % 256, v % 256]

/-- Big-endian value of a byte list (`binary.BigEndian.Uint32` reads the
first four bytes; `Uint16` the first two). -/
def beVal (l : List Nat) : Nat := l.foldl (fun a b => a * 256 + b) 0

/-- Read a big-endian `uint32` at `off` (`binary.BigEndian.Uint32(data[off:])`). -/
def readU32 (data : List Nat) (off : Nat) : Nat := beVal ((data.drop off).take 4)

/-- Read a big-endian `uint16` at `off` (`binary.BigEndian.Uint16(data[off:])`). -/
def readU16 (data : List Nat) (off : Nat) : Nat := beVal ((data.drop off).take 2)

/-- `Serialize`: the fixed big-endian layout of the Go method — header (8),
slotID (4), nodeID (32), length (4), fragmentID (4), totalFrags (2),
fragIndex (2), flags (2), payload, CRC (4), footer (8).  The buffer writes
at increasing offsets are modelled as list concatenation, exact whenever
the array fields have their Go sizes (8/32/8 bytes). -/
def Serialize (f : TDMAFrame) : List Nat :=
  f.Header ++ (u32Bytes f.SlotID ++ (f.NodeID ++ (u32Bytes f.Length ++
    (u32Bytes f.FragmentID ++ (u16Bytes f.TotalFrags ++ (u16Bytes f.FragIndex ++
      (u16Bytes f.Flags ++ (f.Data ++ (u32Bytes f.CRC ++ f.Footer)))))))))

/-- Errors of `DeserializeTDMAFrame`: `tooShort` is the Go error
`"数据长度不足"` (buffer below minimum), `lengthMismatch` the Go error
`"数据长度不匹配"` (stored length inconsistent with the buffer). -/
inductive DeserErr where
  | tooShort
  | lengthMismatch
deriving DecidableEq, Repr

/-- `DeserializeTDMAFrame`: rejects buffers shorter than 60 bytes; reads
the fixed-offset fields; reads `Length` at offset 44; rejects the buffer
when `58 + Length + 12 > len(data)`; otherwise extracts payload, CRC and
footer at their computed offsets.  Bytes beyond `70 + Length` are never
read. -/
def DeserializeTDMAFrame (data : List Nat) : Except DeserErr TDMAFrame :=
  if data.length < 60 then .error .tooShort
  else
    let dataLen := readU32 data 44
    if 58 + dataLen + 12 > data.length then .error .lengthMismatch
    else .ok {
      Header     := data.take 8
      SlotID     := readU32 data 8
      NodeID     := (data.drop 12).take 32
      Length     := dataLen
      FragmentID := readU32 data 48
      TotalFrags := readU16 data 52
      FragIndex  := readU16 data 54
      Flags      := readU16 data 56
      Data       := (data.drop 58).take dataLen
      CRC        := readU32 data (58 + dataLen)
      Footer     := (data.drop (62 + dataLen)).take 8 }

/-- Errors of `Validate`, one per Go error string: `"无效的帧头"`,
`"无效的帧尾"`, `"CRC校验失败"`, `"数据长度不匹配"`. -/
inductive ValidateErr where
  | invalidHeader
  | invalidFooter
  | crcMismatch
  | lengthMismatch
deriving DecidableEq, Repr

/-- `Validate`: header sentinel, footer sentinel, recomputed CRC against
the stored one, then `uint32(len(f.Data)) != f.Length` (note the Go
`uint32` conversion of the length, hence the `% 2^32`).  Returns the first
failing check's error, `none` when all pass. -/
def Validate (f : TDMAFrame) : Option ValidateErr :=
  if f.Header ≠ FRAME_HEADER then some .invalidHeader
  else if f.Footer ≠ FRAME_FOOTER then some .invalidFooter
  else if calculateCRC f ≠ f.CRC then some .crcMismatch
  else if f.Data.length % 2 ^ 32 ≠ f.Length then some .lengthMismatch
  else none

/-- `copy(frame.NodeID[:], []byte(nodeID))` into the zero-valued 32-byte
array: keeps the first 32 bytes of `nodeID`, zero-pads to 32. -/
def padNodeID (nodeID : List Nat) : List Nat :=
  nodeID.take 32 ++ List.replicate (32 - nodeID.length) 0

/-- `NewTDMAFrame`: a non-fragmented frame (`FragmentID = 0`,
`TotalFrags = 1`, `FragIndex = 0`, `Flags = 0`), `Length` set to
`uint32(len(data))`, CRC computed over the finished frame.  The Go
`nodeID` string is modelled by its byte list. -/
def NewTDMAFrame (slotID : Nat) (nodeID : List Nat) (data : List Nat) : TDMAFrame :=
  let f : TDMAFrame := {
    Header     := FRAME_HEADER
    SlotID     := slotID
    NodeID     := padNodeID nodeID
    Length     := data.length % 2 ^ 32
    FragmentID := 0
    TotalFrags := 1
    FragIndex  := 0
    Flags      := 0
    Data       := data
    CRC        := 0
    Footer     := FRAME_FOOTER }
  { f with CRC := calculateCRC f }

/-- `NewFragmentTDMAFrame`: a fragment frame carrying its position within
the fragment group; `Flags` starts at `FLAG_FRAGMENT` and gains
`FLAG_FIRST_FRAG` / `FLAG_LAST_FRAG` from `isFirst` / `isLast`. -/
def NewFragmentTDMAFrame (slotID : Nat) (nodeID : List Nat) (fragmentID : Nat)
    (totalFrags fragIndex : Nat) (data : List Nat) (isFirst isLast : Bool) : TDMAFrame :=
  let flags := FLAG_FRAGMENT |||
    (if isFirst then FLAG_FIRST_FRAG else 0) |||
    (if isLast then FLAG_LAST_FRAG else 0)
  let f : TDMAFrame := {
    Header     := FRAME_HEADER
    SlotID     := slotID
    NodeID     := padNodeID nodeID
    Length     := data.length % 2 ^ 32
    FragmentID := fragmentID
    TotalFrags := totalFrags
    FragIndex  := fragIndex
    Flags      := flags
    Data       := data
    CRC        := 0
    Footer     := FRAME_FOOTER }
  { f with CRC := calculateCRC f }

/-- Well-formedness of a frame, as the spec's invariant plus the Go typing
facts (fixed array sizes, fixed-width integer fields, byte-valued data):
both sentinels set, `Length` equal to the payload byte length, stored CRC
equal to the recomputed checksum. -/
structure WellFormed (f : TDMAFrame) : Prop where
  header  : f.Header = FRAME_HEADER
  footer  : f.Footer = FRAME_FOOTER
  nodeLen : f.NodeID.length = 32
  length  : f.Length = f.Data.length
  crc     : f.CRC = calculateCRC f
  slotW   : f.SlotID < 2 ^ 32
  dataW   : f.Data.length < 2 ^ 32
  fragW   : f.FragmentID < 2 ^ 32
  totW    : f.TotalFrags < 2 ^ 16
  idxW    : f.FragIndex < 2 ^ 16
  flagW   : f.Flags < 2 ^ 16
  dataB   : ∀ b ∈ f.Data, b < 256

/-! ## Helper lemmas for the codec -/

theorem beVal_u32 (v : Nat) (h : v < 2 ^ 32) : beVal (u32Bytes v) = v := by
  simp only [beVal, u32Bytes, List.foldl]
  omega

theorem beVal_u16 (v : Nat) (h : v < 2 ^ 16) : beVal (u16Bytes v) = v := by
  simp only [beVal, u16Bytes, List.foldl]
  omega

theorem u32Bytes_length (v : Nat) : (u32Bytes v).length = 4 := rfl

theorem u16Bytes_length (v : Nat) : (u16Bytes v).length = 2 := rfl

theorem crcStep_lt (c b : Nat) (hb : b < 2 ^ 32) : crcStep c b < 2 ^ 32 :=
  Nat.xor_lt_two_pow (Nat.mod_lt _ (by norm_num)) hb

theorem foldl_crcStep_lt (l : List Nat) (c : Nat) (hc : c < 2 ^ 32)
    (hl : ∀ b ∈ l, b < 2 ^ 32) : l.foldl crcStep c < 2 ^ 32 := by
  induction l generalizing c with
  | nil => exact hc
  | cons b t ih =>
      exact ih _ (crcStep_lt c b (hl b (List.mem_cons_self b t)))
        (fun x hx => hl x (List.mem_cons_of_mem b hx))

theorem calculateCRC_lt (f : TDMAFrame) (hfl : f.Flags < 2 ^ 16)
    (hd : ∀ b ∈ f.Data, b < 256) : calculateCRC f < 2 ^ 32 := by
  unfold calculateCRC
  refine foldl_crcStep_lt _ _ ?_ (fun b hb => lt_trans (hd b hb) (by norm_num))
  refine crcStep_lt _ _ (lt_trans hfl (by norm_num))

/-- C1: for every well-formed frame `f` (both sentinels set, `Length`
equal to the byte length of `Data`, `CRC` equal to the recomputed
checksum), deserializing the bytes produced by serializing `f` yields a
frame equal to `f` field-for-field. -/
theorem roundtrip_serialize_deserialize (f : TDMAFrame) (wf : WellFormed f) :
    DeserializeTDMAFrame (Serialize f) = .ok f := by
  have hHlen : f.Header.length = 8 := by rw [wf.header]; rfl
  have hFlen : f.Footer.length = 8 := by rw [wf.footer]; rfl
  have hLw : f.Length < 2 ^ 32 := by rw [wf.length]; exact wf.dataW
  have hCRCw : f.CRC < 2 ^ 32 := by
    rw [wf.crc]
    exact calculateCRC_lt f wf.flagW wf.dataB
  have d8 : (Serialize f).drop 8 =
      u32Bytes f.SlotID ++ (f.NodeID ++ (u32Bytes f.Length ++ (u32Bytes f.FragmentID ++
        (u16Bytes f.TotalFrags ++ (u16Bytes f.FragIndex ++ (u16Bytes f.Flags ++
          (f.Data ++ (u32Bytes f.CRC ++ f.Footer)))))))) := by
    unfold Serialize
    exact List.drop_left' hHlen
  have d12 : (Serialize f).drop 12 =
      f.NodeID ++ (u32Bytes f.Length ++ (u32Bytes f.FragmentID ++
        (u16Bytes f.TotalFrags ++ (u16Bytes f.FragIndex ++ (u16Bytes f.Flags ++
          (f.Data ++ (u32Bytes f.CRC ++ f.Footer))))))) := by
    rw [show (12 : Nat) = 8 + 4 from rfl, ← List.drop_drop, d8]
    exact List.drop_left' (u32Bytes_length _)
  have d44 : (Serialize f).drop 44 =
      u32Bytes f.Length ++ (u32Bytes f.FragmentID ++
        (u16Bytes f.TotalFrags ++ (u16Bytes f.FragIndex ++ (u16Bytes f.Flags ++
          (f.Data ++ (u32Bytes f.CRC ++ f.Footer)))))) := by
    rw [show (44 : Nat) = 12 + 32 from rfl, ← List.drop_drop, d12]
    exact List.drop_left' wf.nodeLen
  have d48 : (Serialize f).drop 48 =
      u32Bytes f.FragmentID ++ (u16Bytes f.TotalFrags ++ (u16Bytes f.FragIndex ++
        (u16Bytes f.Flags ++ (f.Data ++ (u32Bytes f.CRC ++ f.Footer))))) := by
    rw [show (48 : Nat) = 44 + 4 from rfl, ← List.drop_drop, d44]
    exact List.drop_left' (u32Bytes_length _)
  have d52 : (Serialize f).drop 52 =
      u16Bytes f.TotalFrags ++ (u16Bytes f.FragIndex ++
        (u16Bytes f.Flags ++ (f.Data ++ (u32Bytes f.CRC ++ f.Footer)))) := by
    rw [show (52 : Nat) = 48 + 4 from rfl, ← List.drop_drop, d48]
    exact List.drop_left' (u32Bytes_length _)
  have d54 : (Serialize f).drop 54 =
      u16Bytes f.FragIndex ++ (u16Bytes f.Flags ++
        (f.Data ++ (u32Bytes f.CRC ++ f.Footer))) := by
    rw [show (54 : Nat) = 52 + 2 from rfl, ← List.drop_drop, d52]
    exact List.drop_left' (u16Bytes_length _)
  have d56 : (Serialize f).drop 56 =
      u16Bytes f.Flags ++ (f.Data ++ (u32Bytes f.CRC ++ f.Footer)) := by
    rw [show (56 : Nat) = 54 + 2 from rfl, ← List.drop_drop, d54]
    exact List.drop_left' (u16Bytes_length _)
  have d58 : (Serialize f).drop 58 = f.Data ++ (u32Bytes f.CRC ++ f.Footer) := by
    rw [show (58 : Nat) = 56 + 2 from rfl, ← List.drop_drop, d56]
    exact List.drop_left' (u16Bytes_length _)
  have dCRC : (Serialize f).drop (58 + f.Data.length) = u32Bytes f.CRC ++ f.Footer := by
    rw [← List.drop_drop, d58]
    exact List.drop_left' rfl
  have dFoot : (Serialize f).drop (62 + f.Data.length) = f.Footer := by
    rw [show 62 + f.Data.length = 58 + f.Data.length + 4 by omega, ← List.drop_drop, dCRC]
    exact List.drop_left' (u32Bytes_length _)
  have hHdr : (Serialize f).take 8 = f.Header := by
    unfold Serialize
    exact List.take_left' hHlen
  have hSlot : readU32 (Serialize f) 8 = f.SlotID := by
    rw [readU32, d8, List.take_left' (u32Bytes_length _), beVal_u32 _ wf.slotW]
  have hNode : ((Serialize f).drop 12).take 32 = f.NodeID := by
    rw [d12]
    exact List.take_left' wf.nodeLen
  have hLen : readU32 (Serialize f) 44 = f.Length := by
    rw [readU32, d44, List.take_left' (u32Bytes_length _), beVal_u32 _ hLw]
  have hFrag : readU32 (Serialize f) 48 = f.FragmentID := by
    rw [readU32, d48, List.take_left' (u32Bytes_length _), beVal_u32 _ wf.fragW]
  have hTot : readU16 (Serialize f) 52 = f.TotalFrags := by
    rw [readU16, d52, List.take_left' (u16Bytes_length _), beVal_u16 _ wf.totW]
  have hIdx : readU16 (Serialize f) 54 = f.FragIndex := by
    rw [readU16, d54, List.take_left' (u16Bytes_length _), beVal_u16 _ wf.idxW]
  have hFlg : readU16 (Serialize f) 56 = f.Flags := by
    rw [readU16, d56, List.take_left' (u16Bytes_length _), beVal_u16 _ wf.flagW]
  have hData : ((Serialize f).drop 58).take f.Length = f.Data := by
    rw [d58, wf.length]
    exact List.take_left' rfl
  have hCRC : readU32 (Serialize f) (58 + f.Length) = f.CRC := by
    rw [readU32, wf.length, dCRC, List.take_left' (u32Bytes_length _), beVal_u32 _ hCRCw]
  have hFoot : ((Serialize f).drop (62 + f.Length)).take 8 = f.Footer := by
    rw [wf.length, dFoot, ← hFlen]
    exact List.take_length f.Footer
  have hlenS : (Serialize f).length = 70 + f.Data.length := by
    simp [Serialize, u32Bytes, u16Bytes, hHlen, wf.nodeLen, hFlen]
    try omega
  unfold DeserializeTDMAFrame
  simp only [hLen]
  rw [if_neg (by rw [hlenS]; omega), if_neg (by rw [hlenS, wf.length]; omega)]
  rw [hHdr, hSlot, hNode, hFrag, hTot, hIdx, hFlg, hData, hCRC, hFoot]

/-- C1 witness: the round trip evaluated on a concrete well-formed frame. -/
theorem roundtrip_serialize_deserialize_witness :
    DeserializeTDMAFrame (Serialize (NewTDMAFrame 1 [65] [1, 2, 3])) =
      .ok (NewTDMAFrame 1 [65] [1, 2, 3]) :=
  roundtrip_serialize_deserialize _
    { header := by decide
      footer := by decide
      nodeLen := by decide
      length := by decide
      crc := by decide
      slotW := by decide
      dataW := by decide
      fragW := by decide
      totW := by decide
      idxW := by decide
      flagW := by decide
      dataB := by decide }

/-- C3 counterexample: the fixed (non-payload) portion of an encoded frame
is 70 bytes, not 60 — an empty-payload frame serializes to 70 bytes. -/
theorem fixed_portion_is_70_not_60 :
    (Serialize (NewTDMAFrame 0 [] [])).length = 70 ∧
      (Serialize (NewTDMAFrame 0 [] [])).length ≠ 60 := by
  decide

/-- C3 (amended): for every frame with the Go array sizes, the encoded
length is 70 plus the payload length; and decoding fails with `tooShort`
exactly when the input has fewer than 60 bytes — the constant used by the
code's minimum-size check, which is strictly below the true fixed-field
size of 70. -/
theorem serialize_length_and_tooShort (f : TDMAFrame)
    (h8 : f.Header.length = 8) (h32 : f.NodeID.length = 32)
    (hf8 : f.Footer.length = 8) :
    (Serialize f).length = 70 + f.Data.length ∧
      ∀ data : List Nat,
        (DeserializeTDMAFrame data = .error .tooShort ↔ data.length < 60) := by
  constructor
  · simp [Serialize, u32Bytes, u16Bytes, h8, h32, hf8]
    try omega
  · intro data
    unfold DeserializeTDMAFrame
    by_cases h : data.length < 60
    · simp [h]
    · simp only [h, if_false, iff_false]
      split
      · intro hc
        exact DeserErr.noConfusion (Except.error.inj hc)
      · intro hc
        exact Except.noConfusion hc

/-- C3 witness: the amended statement applied to a concrete one-byte-payload
frame and a 59-byte buffer. -/
theorem serialize_length_and_tooShort_witness :
    (Serialize (NewTDMAFrame 0 [] [5])).length = 70 + (NewTDMAFrame 0 [] [5]).Data.length ∧
      (DeserializeTDMAFrame (List.replicate 59 0) = .error .tooShort ↔
        (List.replicate 59 0).length < 60) :=
  ⟨(serialize_length_and_tooShort (NewTDMAFrame 0 [] [5]) (by decide) (by decide) (by decide)).1,
   (serialize_length_and_tooShort (NewTDMAFrame 0 [] [5]) (by decide) (by decide) (by decide)).2
     (List.replicate 59 0)⟩

/-- C7: `Validate f` succeeds iff the header sentinel, footer sentinel,
checksum and length checks all pass, and each first-failing condition
yields its own distinct error kind (the checks run in the order header,
footer, CRC, length).  The hypothesis is the Go typing fact that a byte
slice's length is below `2^32` (the `uint32` cast in the length check is
then the identity). -/
theorem validate_characterisation (f : TDMAFrame) (hW : f.Data.length < 2 ^ 32) :
    (Validate f = none ↔
      f.Header = FRAME_HEADER ∧ f.Footer = FRAME_FOOTER ∧
        calculateCRC f = f.CRC ∧ f.Data.length = f.Length) ∧
    (Validate f = some .invalidHeader ↔ f.Header ≠ FRAME_HEADER) ∧
    (Validate f = some .invalidFooter ↔
      f.Header = FRAME_HEADER ∧ f.Footer ≠ FRAME_FOOTER) ∧
    (Validate f = some .crcMismatch ↔
      f.Header = FRAME_HEADER ∧ f.Footer = FRAME_FOOTER ∧ calculateCRC f ≠ f.CRC) ∧
    (Validate f = some .lengthMismatch ↔
      f.Header = FRAME_HEADER ∧ f.Footer = FRAME_FOOTER ∧
        calculateCRC f = f.CRC ∧ f.Data.length ≠ f.Length) := by
  unfold Validate
  rw [Nat.mod_eq_of_lt hW]
  by_cases h1 : f.Header = FRAME_HEADER <;>
    by_cases h2 : f.Footer = FRAME_FOOTER <;>
      by_cases h3 : calculateCRC f = f.CRC <;>
        by_cases h4 : f.Data.length = f.Length <;>
          simp [h1, h2, h3, h4]

/-- C7 witness: the characterisation evaluated on a concrete valid frame. -/
theorem validate_characterisation_witness :
    (NewTDMAFrame 2 [66] [9]).Data.length < 2 ^ 32 ∧
      Validate (NewTDMAFrame 2 [66] [9]) = none :=
  ⟨by decide,
   (validate_characterisation (NewTDMAFrame 2 [66] [9]) (by decide)).1.2 (by decide)⟩

/-- C9: the checksum reads only `Header`, `SlotID`, `TotalFrags`,
`FragIndex`, `Flags` and `Data` — two frames agreeing on those six fields
have equal checksums however their `NodeID`, `Length` or `FragmentID`
differ; consequently, if they also share `Footer`, stored `CRC` and
`Length`, `Validate` treats them identically, so corrupting `NodeID` or
`FragmentID` bytes in transit cannot make validation fail. -/
theorem crc_ignores_nodeID_and_fragmentID (f g : TDMAFrame)
    (hH : g.Header = f.Header) (hS : g.SlotID = f.SlotID)
    (hT : g.TotalFrags = f.TotalFrags) (hI : g.FragIndex = f.FragIndex)
    (hFl : g.Flags = f.Flags) (hD : g.Data = f.Data) :
    calculateCRC g = calculateCRC f ∧
      (g.Footer = f.Footer → g.CRC = f.CRC → g.Length = f.Length →
        Validate g = Validate f) := by
  have hcrc : calculateCRC g = calculateCRC f := by
    unfold calculateCRC
    rw [hH, hS, hT, hI, hFl, hD]
  refine ⟨hcrc, fun hFt hC hL => ?_⟩
  unfold Validate
  rw [hH, hFt, hC, hL, hcrc, hD]

/-- C9 witness: a concrete valid frame and the same frame with `NodeID`
and `FragmentID` corrupted have the same checksum and validation result
(both pass). -/
theorem crc_ignores_nodeID_and_fragmentID_witness :
    calculateCRC { NewTDMAFrame 1 [65] [1, 2] with
        NodeID := padNodeID [66], FragmentID := 7 } =
      calculateCRC (NewTDMAFrame 1 [65] [1, 2]) ∧
    Validate { NewTDMAFrame 1 [65] [1, 2] with
        NodeID := padNodeID [66], FragmentID := 7 } =
      Validate (NewTDMAFrame 1 [65] [1, 2]) :=
  ⟨(crc_ignores_nodeID_and_fragmentID (NewTDMAFrame 1 [65] [1, 2]) _
      rfl rfl rfl rfl rfl rfl).1,
   (crc_ignores_nodeID_and_fragmentID (NewTDMAFrame 1 [65] [1, 2]) _
      rfl rfl rfl rfl rfl rfl).2 rfl rfl rfl⟩

/-- C10: deserialization tolerates trailing garbage — whenever the stored
`Length` field `L` (read at offset 44) satisfies `58 + L + 12 ≤ len(buffer)`,
decoding succeeds, and the result is exactly the result of decoding the
first `70 + L` bytes: bytes beyond the frame's end are ignored, so the
length check only ever rejects buffers that are too short, never buffers
strictly longer than the frame they contain. -/
theorem deserialize_ignores_trailing (data : List Nat)
    (h : 58 + readU32 data 44 + 12 ≤ data.length) :
    (∃ f, DeserializeTDMAFrame data = .ok f) ∧
      DeserializeTDMAFrame data =
        DeserializeTDMAFrame (data.take (70 + readU32 data 44)) := by
  set L := readU32 data 44 with hLdef
  have h60 : ¬ data.length < 60 := by omega
  have h70 : ¬ 58 + L + 12 > data.length := by omega
  have hlen' : (data.take (70 + L)).length = 70 + L := by
    rw [List.length_take]
    omega
  have key : ∀ o k : Nat, o + k ≤ 70 + L →
      ((data.take (70 + L)).drop o).take k = (data.drop o).take k := by
    intro o k hok
    rw [List.drop_take, List.take_take]
    congr 1
    omega
  have key32 : ∀ o : Nat, o + 4 ≤ 70 + L →
      readU32 (data.take (70 + L)) o = readU32 data o := by
    intro o ho
    rw [readU32, readU32, key o 4 ho]
  have key16 : ∀ o : Nat, o + 2 ≤ 70 + L →
      readU16 (data.take (70 + L)) o = readU16 data o := by
    intro o ho
    rw [readU16, readU16, key o 2 ho]
  have hL' : readU32 (data.take (70 + L)) 44 = L := by
    rw [key32 44 (by omega), ← hLdef]
  have hhd : (data.take (70 + L)).take 8 = data.take 8 := by
    rw [List.take_take]
    congr 1
    omega
  constructor
  · have hok : DeserializeTDMAFrame data = .ok {
        Header     := data.take 8
        SlotID     := readU32 data 8
        NodeID     := (data.drop 12).take 32
        Length     := L
        FragmentID := readU32 data 48
        TotalFrags := readU16 data 52
        FragIndex  := readU16 data 54
        Flags      := readU16 data 56
        Data       := (data.drop 58).take L
        CRC        := readU32 data (58 + L)
        Footer     := (data.drop (62 + L)).take 8 } := by
      unfold DeserializeTDMAFrame
      rw [if_neg h60]
      simp only [← hLdef, if_neg h70]
    exact ⟨_, hok⟩
  · unfold DeserializeTDMAFrame
    rw [if_neg h60, if_neg (by rw [hlen']; omega : ¬ (data.take (70 + L)).length < 60)]
    simp only [← hLdef, hL', if_neg h70,
      if_neg (show ¬ 58 + L + 12 > (data.take (70 + L)).length by rw [hlen']; omega)]
    rw [hhd, key32 8 (by omega), key 12 32 (by omega), key32 48 (by omega),
      key16 52 (by omega), key16 54 (by omega), key16 56 (by omega),
      key 58 L (by omega), key32 (58 + L) (by omega), key (62 + L) 8 (by omega)]

/-- C10 witness: an all-zero 80-byte buffer stores `L = 0`, so the frame
ends at byte 70 and the 10 trailing bytes are ignored. -/
theorem deserialize_ignores_trailing_witness :
    (∃ f, DeserializeTDMAFrame (List.replicate 80 0) = .ok f) ∧
      DeserializeTDMAFrame (List.replicate 80 0) =
        DeserializeTDMAFrame ((List.replicate 80 0).take
          (70 + readU32 (List.replicate 80 0) 44)) :=
  deserialize_ignores_trailing (List.replicate 80 0) (by decide)

/-! ## Slot clock (`GetGlobalSlotID`) -/

/-- `GetGlobalSlotID`, with the wall-clock reading `now` and the epoch made
explicit inputs.  The Go code computes `int(elapsed/slotDuration) % totalSlots`
with Go's truncated division and remainder and performs no validation of the
configuration; a zero `slotDuration` or zero `totalSlots` is a Go runtime
division-by-zero panic, modelled as `none`. -/
def GetGlobalSlotID (now epoch slotDuration totalSlots : Int) : Option Int :=
  if slotDuration = 0 ∨ totalSlots = 0 then none
  else some (Int.tmod (Int.tdiv (now - epoch) slotDuration) totalSlots)

/-- C4 counterexample: with `slotDuration = -1 ≤ 0` (and `totalSlots = 3`)
the code does not fail — it returns the value `-2` where the claim
requires failure with `InvalidConfiguration`. -/
theorem getGlobalSlotID_no_validation :
    GetGlobalSlotID 5 0 (-1) 3 = some (-2) ∧ GetGlobalSlotID 5 0 (-1) 3 ≠ none := by
  constructor
  · decide
  · decide

/-- C4 (amended): the slot id is computed with Go's truncated division and
remainder and no configuration validation exists; whenever `epoch ≤ now`,
`slotDuration > 0` and `totalSlots > 0` this coincides with
`floor((now - epoch) / slotDuration) mod totalSlots` (floor division, then
the nonnegative remainder).  Determinism is by construction: the result is
a function of the four inputs only. -/
theorem getGlobalSlotID_formula (now epoch slotDuration totalSlots : Int)
    (h1 : epoch ≤ now) (h2 : 0 < slotDuration) (h3 : 0 < totalSlots) :
    GetGlobalSlotID now epoch slotDuration totalSlots =
      some (Int.fdiv (now - epoch) slotDuration % totalSlots) := by
  unfold GetGlobalSlotID
  rw [if_neg (by push_neg; exact ⟨ne_of_gt h2, ne_of_gt h3⟩)]
  have he : (0 : Int) ≤ now - epoch := by omega
  rw [Int.tdiv_eq_ediv he (le_of_lt h2), Int.fdiv_eq_ediv _ (le_of_lt h2),
    Int.tmod_eq_emod (Int.ediv_nonneg he (le_of_lt h2)) (le_of_lt h3)]

/-- C4 witness: the amended formula at `now = 10`, `epoch = 0`,
`slotDuration = 3`, `totalSlots = 4`. -/
theorem getGlobalSlotID_formula_witness :
    GetGlobalSlotID 10 0 3 4 = some (Int.fdiv (10 - 0) 3 % 4) :=
  getGlobalSlotID_formula 10 0 3 4 (by decide) (by decide) (by decide)

/-! ## Slot scheduler (`internal/scheduler`) -/

/-- A slot-table record, mirroring the Go struct `SlotStatus`; `Status` is
one of the strings `"FREE"`, `"ASSIGNED"`, `"BUSY"` exactly as in Go. -/
structure SlotStatus where
  SlotID     : Nat
  NodeID     : String
  Status     : String
  StartTime  : Int
  Duration   : Int
  FragmentID : Nat
deriving DecidableEq, Repr, Inhabited

/-- The scheduler state: the slot table (index `i` of the list models the
Go map key `i`), the fixed slot count, the slot duration and the current
slot pointer. -/
structure TDMAScheduler where
  slots        : List SlotStatus
  totalSlots   : Nat
  slotDuration : Int
  currentSlot  : Nat
deriving DecidableEq, Repr

/-- `NewTDMAScheduler`: all slots start `"FREE"` with their id and
duration recorded; the Go zero `time.Time` start is modelled as 0. -/
def NewTDMAScheduler (totalSlots : Nat) (slotDuration : Int) : TDMAScheduler :=
  { slots := (List.range totalSlots).map fun i =>
      { SlotID := i, NodeID := "", Status := "FREE", StartTime := 0,
        Duration := slotDuration, FragmentID := 0 }
    totalSlots := totalSlots
    slotDuration := slotDuration
    currentSlot := 0 }

/-- Table lookup `s.slots[i]` (always in bounds in the Go code paths
modelled; out-of-range indices default). -/
def getSlot (slots : List SlotStatus) (i : Nat) : SlotStatus :=
  slots.getD i default

/-- Marking slot `i` assigned to `nodeID` at time `now` (the three field
writes of the Go allocation branches). -/
def assignSlot (slots : List SlotStatus) (i : Nat) (nodeID : String) (now : Int) :
    List SlotStatus :=
  slots.set i { getSlot slots i with NodeID := nodeID, Status := "ASSIGNED", StartTime := now }

/-- Scheduler errors, one per Go error string: `"没有可用的时隙"`,
`"没有足够的连续时隙"`, `"无效的时隙ID"`. -/
inductive SchedErr where
  | noSlotAvailable
  | insufficientConsecutiveSlots
  | invalidSlotID
deriving DecidableEq, Repr

/-- The first loop of `AllocateTimeSlot`: scan indices in order; on a slot
already `ASSIGNED` to `nodeID`, return it if its age is under
`10 * slotDuration`, else free it (clearing the owner) and keep
scanning. -/
def expireScan (nodeID : String) (now dur : Int) :
    List Nat → List SlotStatus → Option Nat × List SlotStatus
  | [], slots => (none, slots)
  | i :: rest, slots =>
    let sl := getSlot slots i
    if sl.NodeID = nodeID ∧ sl.Status = "ASSIGNED" then
      if now - sl.StartTime < dur * 10 then (some i, slots)
      else expireScan nodeID now dur rest
        (slots.set i { sl with Status := "FREE", NodeID := "" })
    else expireScan nodeID now dur rest slots

/-- The ring scan of `AllocateTimeSlot` starting two positions ahead of
the current slot: return the first `(cur + off) % n` that is `"FREE"`,
for `off` rising while fuel lasts (Go: `offset := 2; offset < totalSlots`). -/
def scanFree (slots : List SlotStatus) (n cur : Nat) : Nat → Nat → Option Nat
  | _, 0 => none
  | off, fuel + 1 =>
    if (getSlot slots ((cur + off) % n)).Status = "FREE" then some ((cur + off) % n)
    else scanFree slots n cur (off + 1) fuel

/-- The oldest-assigned-slot fold of `AllocateTimeSlot`: Go's
`oldestSlot := -1; oldestTime := time.Now()` accumulator, updated on each
`ASSIGNED` slot whose start is strictly before the accumulator. -/
def findOldest (slots : List SlotStatus) : List Nat → Option Nat × Int → Option Nat × Int
  | [], acc => acc
  | i :: rest, acc =>
    let sl := getSlot slots i
    if sl.Status = "ASSIGNED" ∧ sl.StartTime < acc.2 then
      findOldest slots rest (some i, sl.StartTime)
    else findOldest slots rest acc

/-- Last phase of `AllocateTimeSlot`: preempt the oldest assigned slot if
its age exceeds `5 * slotDuration`, else fail with no further mutation
(the table keeps whatever the expiry scan left, `slots1`). -/
def allocateOldest (s : TDMAScheduler) (nodeID : String) (now : Int)
    (slots1 : List SlotStatus) : Except SchedErr Nat × TDMAScheduler :=
  match findOldest slots1 (List.range s.totalSlots) (none, now) with
  | (some oldest, oldestTime) =>
    if now - oldestTime > s.slotDuration * 5 then
      (.ok oldest, { s with slots := assignSlot slots1 oldest nodeID now })
    else (.error .noSlotAvailable, { s with slots := slots1 })
  | (none, _) => (.error .noSlotAvailable, { s with slots := slots1 })

/-- Middle phase of `AllocateTimeSlot` on the post-expiry table `slots1`:
current slot, then next slot, then the ring scan from offset 2, then the
oldest-slot preemption. -/
def allocateFrom (s : TDMAScheduler) (nodeID : String) (now : Int)
    (slots1 : List SlotStatus) : Except SchedErr Nat × TDMAScheduler :=
  if (getSlot slots1 s.currentSlot).Status = "FREE" then
    (.ok s.currentSlot, { s with slots := assignSlot slots1 s.currentSlot nodeID now })
  else if (getSlot slots1 ((s.currentSlot + 1) % s.totalSlots)).Status = "FREE" then
    (.ok ((s.currentSlot + 1) % s.totalSlots),
      { s with slots := assignSlot slots1 ((s.currentSlot + 1) % s.totalSlots) nodeID now })
  else
    match scanFree slots1 s.totalSlots s.currentSlot 2 (s.totalSlots - 2) with
    | some id => (.ok id, { s with slots := assignSlot slots1 id nodeID now })
    | none => allocateOldest s nodeID now slots1

/-- `AllocateTimeSlot` (the `priority` argument is accepted and ignored,
as in Go): the expiry scan may return an already-owned live slot;
otherwise allocation proceeds on the possibly-updated table. -/
def AllocateTimeSlot (s : TDMAScheduler) (nodeID : String) (priority : Int)
    (now : Int) : Except SchedErr Nat × TDMAScheduler :=
  match expireScan nodeID now s.slotDuration (List.range s.totalSlots) s.slots with
  | (some i, slots1) => (.ok i, { s with slots := slots1 })
  | (none, slots1) => allocateFrom s nodeID now slots1

/-- The field writes of `ReleaseTimeSlot`: clear status, owner and carried
fragment id of slot `i` (the start time is left as-is, as in Go). -/
def releaseAt (slots : List SlotStatus) (i : Nat) : List SlotStatus :=
  slots.set i { getSlot slots i with Status := "FREE", NodeID := "", FragmentID := 0 }

/-- `ReleaseTimeSlot`: validates the slot id, then clears the slot. -/
def ReleaseTimeSlot (s : TDMAScheduler) (slotID : Int) :
    Except SchedErr Unit × TDMAScheduler :=
  if slotID < 0 ∨ (s.totalSlots : Int) ≤ slotID then (.error .invalidSlotID, s)
  else (.ok (), { s with slots := releaseAt s.slots slotID.toNat })

/-- Window test of `AllocateConsecutiveSlots`: slots `i, …, i+count-1` all
`"FREE"`. -/
def windowFree (slots : List SlotStatus) (i count : Nat) : Bool :=
  (List.range count).all fun j => (getSlot slots (i + j)).Status == "FREE"

/-- First-fit search of `AllocateConsecutiveSlots`: the Go loop
`for i := 0; i <= totalSlots-count; i++`, returning the first window
start that is fully free. -/
def firstFitFrom (slots : List SlotStatus) (count : Nat) : Nat → Nat → Option Nat
  | _, 0 => none
  | i, fuel + 1 =>
    if windowFree slots i count then some i
    else firstFitFrom slots count (i + 1) fuel

/-- The assignment loop of `AllocateConsecutiveSlots`: assign slots
`i, …, i+count-1` to `nodeID` in order. -/
def assignRange (slots : List SlotStatus) (nodeID : String) (now : Int) :
    Nat → Nat → List SlotStatus
  | _, 0 => slots
  | i, c + 1 => assignRange (assignSlot slots i nodeID now) nodeID now (i + 1) c

/-- `AllocateConsecutiveSlots`: first-fit over window starts
`0 … totalSlots - count` (no wrap past the end; for `count > totalSlots`
the Go loop bound is negative and the loop body never runs), assigning
the whole window on success and mutating nothing on failure. -/
def AllocateConsecutiveSlots (s : TDMAScheduler) (nodeID : String) (count : Nat)
    (now : Int) : Except SchedErr (List Nat) × TDMAScheduler :=
  if count ≤ s.totalSlots then
    match firstFitFrom s.slots count 0 (s.totalSlots - count + 1) with
    | some i =>
      (.ok ((List.range count).map (i + ·)),
        { s with slots := assignRange s.slots nodeID now i count })
    | none => (.error .insufficientConsecutiveSlots, s)
  else (.error .insufficientConsecutiveSlots, s)

deriving instance DecidableEq for Except

/-- The concrete scheduler of the spec's scenario: `N = 10`,
`slotDuration = 1s` (in nanoseconds), `currentSlotPointer = 3`, all slots
free. -/
def sched10 : TDMAScheduler :=
  { NewTDMAScheduler 10 1000000000 with currentSlot := 3 }

/-- C2: on `sched10`, `allocate("A",1)` returns slot 3; a subsequent
`allocate("B",1)` returns slot 4; after `release(3)`, `allocate("C",1)`
returns slot 3 again (all calls at the same instant `now = 0`). -/
theorem allocate_concrete_scenario :
    (AllocateTimeSlot sched10 "A" 1 0).1 = .ok 3 ∧
    (AllocateTimeSlot (AllocateTimeSlot sched10 "A" 1 0).2 "B" 1 0).1 = .ok 4 ∧
    (AllocateTimeSlot (ReleaseTimeSlot
        (AllocateTimeSlot (AllocateTimeSlot sched10 "A" 1 0).2 "B" 1 0).2 3).2
      "C" 1 0).1 = .ok 3 := by
  decide

theorem getSlot_set_self (slots : List SlotStatus) (i : Nat) (v : SlotStatus)
    (h : i < slots.length) : getSlot (slots.set i v) i = v := by
  simp [getSlot, List.getD, List.getElem?_set_self', h]

theorem getSlot_set_ne (slots : List SlotStatus) (i j : Nat) (v : SlotStatus)
    (h : j ≠ i) : getSlot (slots.set i v) j = getSlot slots j := by
  simp [getSlot, List.getD, List.getElem?_set_ne (fun hh => h hh.symm)]

theorem expireScan_length (nodeID : String) (now dur : Int) :
    ∀ (idxs : List Nat) (slots : List SlotStatus),
      (expireScan nodeID now dur idxs slots).2.length = slots.length := by
  intro idxs
  induction idxs with
  | nil => intro slots; rfl
  | cons i rest ih =>
      intro slots
      simp only [expireScan]
      by_cases h1 : (getSlot slots i).NodeID = nodeID ∧ (getSlot slots i).Status = "ASSIGNED"
      · rw [if_pos h1]
        by_cases h2 : now - (getSlot slots i).StartTime < dur * 10
        · rw [if_pos h2]
        · rw [if_neg h2, ih, List.length_set]
      · rw [if_neg h1, ih]

/-- If the expiry scan finishes without an early return, either it changed
nothing or some slot of the resulting table is free (every index it frees
stays visible because the scan only ever clears slots). -/
theorem expireScan_none (nodeID : String) (now dur : Int) :
    ∀ (idxs : List Nat) (slots slots1 : List SlotStatus),
      (∀ i ∈ idxs, i < slots.length) →
      expireScan nodeID now dur idxs slots = (none, slots1) →
      slots1 = slots ∨ ∃ i, i < slots1.length ∧ (getSlot slots1 i).Status = "FREE" := by
  intro idxs
  induction idxs with
  | nil =>
      intro slots slots1 hb h
      simp only [expireScan] at h
      injection h with h1 h2
      exact Or.inl h2.symm
  | cons i rest ih =>
      intro slots slots1 hb h
      simp only [expireScan] at h
      by_cases h1 : (getSlot slots i).NodeID = nodeID ∧ (getSlot slots i).Status = "ASSIGNED"
      · rw [if_pos h1] at h
        by_cases h2 : now - (getSlot slots i).StartTime < dur * 10
        · rw [if_pos h2] at h
          exact absurd h (by simp)
        · rw [if_neg h2] at h
          have hbound : i < slots.length := hb i (List.mem_cons_self i rest)
          have hb2 : ∀ j ∈ rest,
              j < (slots.set i { getSlot slots i with Status := "FREE", NodeID := "" }).length := by
            intro j hj
            rw [List.length_set]
            exact hb j (List.mem_cons_of_mem i hj)
          rcases ih _ slots1 hb2 h with heq | hfree
          · right
            refine ⟨i, ?_, ?_⟩
            · rw [heq, List.length_set]
              exact hbound
            · rw [heq, getSlot_set_self _ _ _ hbound]
          · exact Or.inr hfree
      · rw [if_neg h1] at h
        exact ih slots slots1 (fun j hj => hb j (List.mem_cons_of_mem i hj)) h

theorem scanFree_none (slots : List SlotStatus) (n cur : Nat) :
    ∀ (fuel off : Nat), scanFree slots n cur off fuel = none →
      ∀ k, off ≤ k → k < off + fuel → (getSlot slots ((cur + k) % n)).Status ≠ "FREE" := by
  intro fuel
  induction fuel with
  | zero =>
      intro off h k h1 h2
      omega
  | succ m ih =>
      intro off h k h1 h2
      simp only [scanFree] at h
      by_cases hf : (getSlot slots ((cur + off) % n)).Status = "FREE"
      · rw [if_pos hf] at h
        exact absurd h (by simp)
      · rw [if_neg hf] at h
        rcases Nat.eq_or_lt_of_le h1 with he | hlt
        · rw [← he]
          exact hf
        · exact ih (off + 1) h k hlt (by omega)

/-- Every ring index below `N` is reached by the allocation scan: it is
the current slot, the next slot, or `(cur + off) % N` for some offset in
`[2, N)`. -/
theorem ring_cover (N cur i : Nat) (hc : cur < N) (hi : i < N) :
    i = cur ∨ i = (cur + 1) % N ∨ ∃ off, 2 ≤ off ∧ off < N ∧ (cur + off) % N = i := by
  by_cases h0 : i = cur
  · exact Or.inl h0
  rcases Nat.lt_or_ge cur i with hlt | hge
  · by_cases h2 : i = cur + 1
    · refine Or.inr (Or.inl ?_)
      rw [h2, Nat.mod_eq_of_lt (by omega)]
    · refine Or.inr (Or.inr ⟨i - cur, by omega, by omega, ?_⟩)
      rw [show cur + (i - cur) = i by omega]
      exact Nat.mod_eq_of_lt hi
  · have hlt2 : i < cur := by omega
    by_cases h2 : i + N - cur = 1
    · refine Or.inr (Or.inl ?_)
      rw [show cur + 1 = N by omega, Nat.mod_self]
      omega
    · refine Or.inr (Or.inr ⟨i + N - cur, by omega, by omega, ?_⟩)
      rw [show cur + (i + N - cur) = i + N by omega, Nat.add_mod_right]
      exact Nat.mod_eq_of_lt hi

/-- C5: whenever `AllocateTimeSlot` fails (with `NoSlotAvailable`, the only
failure it can produce), the slot table after the call is exactly the
table before the call — no slot's status, owner or timestamp is mutated on
the failure path.  (`hlen`/`hcur` are the invariants every reachable
scheduler state satisfies: the table has `totalSlots` entries and the
pointer is in range.) -/
theorem allocate_failure_no_mutation (s : TDMAScheduler) (nodeID : String)
    (priority now : Int) (e : SchedErr)
    (hlen : s.slots.length = s.totalSlots) (hcur : s.currentSlot < s.totalSlots)
    (herr : (AllocateTimeSlot s nodeID priority now).1 = .error e) :
    (AllocateTimeSlot s nodeID priority now).2 = s := by
  unfold AllocateTimeSlot at herr ⊢
  split
  next i slots1 hex =>
    simp [hex] at herr
  next slots1 hex =>
    simp only [hex] at herr
    unfold allocateFrom at herr ⊢
    by_cases h1 : (getSlot slots1 s.currentSlot).Status = "FREE"
    · rw [if_pos h1] at herr
      simp at herr
    rw [if_neg h1] at herr ⊢
    by_cases h2 : (getSlot slots1 ((s.currentSlot + 1) % s.totalSlots)).Status = "FREE"
    · rw [if_pos h2] at herr
      simp at herr
    rw [if_neg h2] at herr ⊢
    split
    next id hscan =>
      simp [hscan] at herr
    next hscan =>
      simp only [hscan] at herr
      have hlen1 : slots1.length = s.slots.length := by
        have hh := expireScan_length nodeID now s.slotDuration (List.range s.totalSlots) s.slots
        rw [hex] at hh
        exact hh
      have hnofree : ∀ j, j < s.totalSlots → (getSlot slots1 j).Status ≠ "FREE" := by
        intro j hj
        rcases ring_cover s.totalSlots s.currentSlot j hcur hj with hc | hc | ⟨off, ho2, hoN, hoeq⟩
        · rw [hc]
          exact h1
        · rw [hc]
          exact h2
        · have hh := scanFree_none slots1 s.totalSlots s.currentSlot (s.totalSlots - 2) 2
            hscan off ho2 (by omega)
          rw [hoeq] at hh
          exact hh
      have hs1 : slots1 = s.slots := by
        rcases expireScan_none nodeID now s.slotDuration (List.range s.totalSlots) s.slots slots1
            (fun i hi => by rw [hlen]; exact List.mem_range.mp hi) hex with heq | ⟨i, hi, hfree⟩
        · exact heq
        · exact absurd hfree (hnofree i (by omega))
      unfold allocateOldest at herr ⊢
      split
      next oldest t hold =>
        simp only [hold] at herr
        by_cases h5 : now - t > s.slotDuration * 5
        · rw [if_pos h5] at herr
          simp at herr
        · rw [if_neg h5] at herr ⊢
          show ({ s with slots := slots1 } : TDMAScheduler) = s
          rw [hs1]
      next t hold =>
        simp only [hold] at herr
        show ({ s with slots := slots1 } : TDMAScheduler) = s
        rw [hs1]

/-- A 3-slot scheduler whose slots are all freshly assigned to distinct
owners: allocation for a new node must fail, preemption being ruled out by
the zero ages. -/
def fullSched : TDMAScheduler :=
  { slots :=
      [{ SlotID := 0, NodeID := "P", Status := "ASSIGNED", StartTime := 0,
         Duration := 1000, FragmentID := 0 },
       { SlotID := 1, NodeID := "Q", Status := "ASSIGNED", StartTime := 0,
         Duration := 1000, FragmentID := 0 },
       { SlotID := 2, NodeID := "R", Status := "ASSIGNED", StartTime := 0,
         Duration := 1000, FragmentID := 0 }]
    totalSlots := 3
    slotDuration := 1000
    currentSlot := 0 }

/-- C5 witness: on the exhausted `fullSched`, allocation for `"Z"` fails
and the theorem yields that the scheduler is left exactly as it was. -/
theorem allocate_failure_no_mutation_witness :
    (AllocateTimeSlot fullSched "Z" 1 0).2 = fullSched :=
  allocate_failure_no_mutation fullSched "Z" 1 0 .noSlotAvailable
    (by decide) (by decide) (by decide)

theorem firstFitFrom_some (slots : List SlotStatus) (count : Nat) :
    ∀ (fuel i r : Nat), firstFitFrom slots count i fuel = some r →
      i ≤ r ∧ r < i + fuel ∧ windowFree slots r count = true ∧
        ∀ j, i ≤ j → j < r → windowFree slots j count = false := by
  intro fuel
  induction fuel with
  | zero =>
      intro i r h
      simp [firstFitFrom] at h
  | succ m ih =>
      intro i r h
      simp only [firstFitFrom] at h
      by_cases hw : windowFree slots i count = true
      · rw [if_pos hw] at h
        injection h with h1
        subst h1
        exact ⟨le_refl _, by omega, hw, fun j hj1 hj2 => absurd hj1 (by omega)⟩
      · rw [if_neg hw] at h
        obtain ⟨ha, hb, hc, hd⟩ := ih (i + 1) r h
        refine ⟨by omega, by omega, hc, fun j hj1 hj2 => ?_⟩
        rcases Nat.eq_or_lt_of_le hj1 with he | hlt
        · rw [← he]
          exact Bool.eq_false_iff.mpr hw
        · exact hd j hlt hj2

theorem firstFitFrom_none (slots : List SlotStatus) (count : Nat) :
    ∀ (fuel i : Nat), firstFitFrom slots count i fuel = none →
      ∀ j, i ≤ j → j < i + fuel → windowFree slots j count = false := by
  intro fuel
  induction fuel with
  | zero =>
      intro i h j h1 h2
      omega
  | succ m ih =>
      intro i h j h1 h2
      simp only [firstFitFrom] at h
      by_cases hw : windowFree slots i count = true
      · rw [if_pos hw] at h
        exact absurd h (by simp)
      · rw [if_neg hw] at h
        rcases Nat.eq_or_lt_of_le h1 with he | hlt
        · rw [← he]
          exact Bool.eq_false_iff.mpr hw
        · exact ih (i + 1) h j hlt (by omega)

theorem assignRange_length (nodeID : String) (now : Int) :
    ∀ (c i : Nat) (slots : List SlotStatus),
      (assignRange slots nodeID now i c).length = slots.length := by
  intro c
  induction c with
  | zero => intro i slots; rfl
  | succ m ih =>
      intro i slots
      simp only [assignRange]
      rw [ih, assignSlot, List.length_set]

theorem assignRange_outside (nodeID : String) (now : Int) :
    ∀ (c i k : Nat) (slots : List SlotStatus), k < i ∨ i + c ≤ k →
      getSlot (assignRange slots nodeID now i c) k = getSlot slots k := by
  intro c
  induction c with
  | zero => intro i k slots h; rfl
  | succ m ih =>
      intro i k slots h
      simp only [assignRange]
      rw [ih (i + 1) k _ (by omega), assignSlot, getSlot_set_ne _ _ _ _ (by omega)]

theorem assignRange_inside (nodeID : String) (now : Int) :
    ∀ (c j i : Nat) (slots : List SlotStatus), j < c → i + j < slots.length →
      getSlot (assignRange slots nodeID now i c) (i + j) =
        { getSlot slots (i + j) with
            NodeID := nodeID, Status := "ASSIGNED", StartTime := now } := by
  intro c
  induction c with
  | zero =>
      intro j i slots h1 h2
      omega
  | succ m ih =>
      intro j i slots h1 h2
      simp only [assignRange]
      cases j with
      | zero =>
          rw [assignRange_outside nodeID now m (i + 1) (i + 0) _ (by omega)]
          rw [assignSlot, Nat.add_zero, getSlot_set_self _ _ _ (by omega)]
      | succ j' =>
          rw [show i + (j' + 1) = (i + 1) + j' by omega]
          rw [ih j' (i + 1) _ (by omega) (by rw [assignSlot, List.length_set]; omega)]
          rw [assignSlot, getSlot_set_ne _ _ _ _ (by omega)]

/-- C6: `AllocateConsecutiveSlots` performs a first-fit scan for a
contiguous window of `count` free slots that does not wrap past the end of
the table; on success it returns exactly the first such window
`[i, …, i+count-1]` and assigns the whole window atomically (those slots
become `ASSIGNED` to the node, every other slot is untouched); when no
such window exists it fails with `insufficientConsecutiveSlots` and
mutates nothing.  On a fully free 10-slot table a 3-slot request returns
`[0,1,2]` and a second node's 3-slot request returns `[3,4,5]`. -/
theorem allocateConsecutive_first_fit (s : TDMAScheduler) (nodeID : String)
    (count : Nat) (now : Int) (hlen : s.slots.length = s.totalSlots) :
    (∀ e, (AllocateConsecutiveSlots s nodeID count now).1 = .error e →
      e = .insufficientConsecutiveSlots ∧
        (AllocateConsecutiveSlots s nodeID count now).2 = s ∧
        ∀ i, i + count ≤ s.totalSlots → windowFree s.slots i count = false) ∧
    (∀ l, (AllocateConsecutiveSlots s nodeID count now).1 = .ok l →
      ∃ i, i + count ≤ s.totalSlots ∧ windowFree s.slots i count = true ∧
        (∀ q, q < i → windowFree s.slots q count = false) ∧
        l = (List.range count).map (i + ·) ∧
        (∀ j, j < count →
          getSlot (AllocateConsecutiveSlots s nodeID count now).2.slots (i + j) =
            { getSlot s.slots (i + j) with
                NodeID := nodeID, Status := "ASSIGNED", StartTime := now }) ∧
        (∀ k, k < i ∨ i + count ≤ k →
          getSlot (AllocateConsecutiveSlots s nodeID count now).2.slots k =
            getSlot s.slots k)) ∧
    (AllocateConsecutiveSlots (NewTDMAScheduler 10 1000000000) "X" 3 0).1 = .ok [0, 1, 2] ∧
    (AllocateConsecutiveSlots
      (AllocateConsecutiveSlots (NewTDMAScheduler 10 1000000000) "X" 3 0).2
      "Y" 3 0).1 = .ok [3, 4, 5] := by
  refine ⟨?_, ?_, by decide, by decide⟩
  · intro e he
    unfold AllocateConsecutiveSlots at he ⊢
    by_cases hc : count ≤ s.totalSlots
    · rw [if_pos hc] at he ⊢
      rcases hff : firstFitFrom s.slots count 0 (s.totalSlots - count + 1) with _ | i
      · simp only [hff] at he ⊢
        refine ⟨(Except.error.inj he).symm, by trivial, fun i hi => ?_⟩
        exact firstFitFrom_none s.slots count (s.totalSlots - count + 1) 0 hff i
          (by omega) (by omega)
      · simp [hff] at he
    · rw [if_neg hc] at he ⊢
      exact ⟨(Except.error.inj he).symm, rfl, fun i hi => absurd hi (by omega)⟩
  · intro l hl
    unfold AllocateConsecutiveSlots at hl ⊢
    by_cases hc : count ≤ s.totalSlots
    · rw [if_pos hc] at hl ⊢
      rcases hff : firstFitFrom s.slots count 0 (s.totalSlots - count + 1) with _ | i
      · simp [hff] at hl
      · simp only [hff] at hl ⊢
        obtain ⟨ha, hb, hw, hmin⟩ :=
          firstFitFrom_some s.slots count (s.totalSlots - count + 1) 0 i hff
        refine ⟨i, by omega, hw, fun q hq => hmin q (by omega) hq, ?_, ?_, ?_⟩
        · exact (Except.ok.inj hl).symm
        · intro j hj
          exact assignRange_inside nodeID now count j i s.slots hj (by omega)
        · intro k hk
          exact assignRange_outside nodeID now count i k s.slots hk
    · rw [if_neg hc] at hl
      exact absurd hl (by simp)

/-- C6 witness: requesting 5 consecutive slots from a 4-slot scheduler
fails and, by the theorem, leaves the scheduler untouched. -/
theorem allocateConsecutive_first_fit_witness :
    (AllocateConsecutiveSlots (NewTDMAScheduler 4 1000) "W" 5 0).2 =
      NewTDMAScheduler 4 1000 :=
  ((allocateConsecutive_first_fit (NewTDMAScheduler 4 1000) "W" 5 0 (by decide)).1
    .insufficientConsecutiveSlots (by decide)).2.1

/-- Greedy chunking: successive `take maxSize` pieces of the payload
(empty payload or zero chunk size yields no chunks). -/
def chunks (maxSize : Nat) (payload : List Nat) : List (List Nat) :=
  if h : payload = [] ∨ maxSize = 0 then []
  else payload.take maxSize :: chunks maxSize (payload.drop maxSize)
termination_by payload.length
decreasing_by
  simp only [List.length_drop]
  have hp : 0 < payload.length := List.length_pos.mpr (fun he => h (Or.inl he))
  have hmz : 0 < maxSize := Nat.pos_of_ne_zero (fun he => h (Or.inr he))
  omega

/-- Modelled from the spec: the FragmentAssembler operation
`split(payload, maxFragmentPayloadSize, nodeId, slotId)` is not present
under `src` (only the frame constructors it relies on are).  Following
§4.3 of the spec it deterministically chunks the payload into consecutive
pieces of at most `maxSize` bytes, builds one fragment frame per piece via
the repository's `NewFragmentTDMAFrame` with `totalFragments` the number
of pieces, `FIRST_FRAGMENT` on index 0 and `LAST_FRAGMENT` on the last
index, and returns a single non-fragmented `NewTDMAFrame` when the
payload fits in one piece. -/
def SplitPayload (slotID : Nat) (nodeID : List Nat) (fragmentID maxSize : Nat)
    (payload : List Nat) : List TDMAFrame :=
  if payload.length ≤ maxSize then [NewTDMAFrame slotID nodeID payload]
  else
    (List.range (chunks maxSize payload).length).map fun idx =>
      NewFragmentTDMAFrame slotID nodeID fragmentID (chunks maxSize payload).length idx
        ((chunks maxSize payload).getD idx [])
        (idx == 0) (idx == (chunks maxSize payload).length - 1)

theorem chunks_flatten (maxSize : Nat) (hm : maxSize ≠ 0) :
    ∀ (n : Nat) (payload : List Nat), payload.length ≤ n →
      (chunks maxSize payload).flatten = payload := by
  intro n
  induction n with
  | zero =>
      intro payload hp
      have hnil : payload = [] := List.eq_nil_of_length_eq_zero (by omega)
      subst hnil
      rw [chunks, dif_pos (Or.inl rfl)]
      rfl
  | succ m ih =>
      intro payload hp
      by_cases hnil : payload = []
      · subst hnil
        rw [chunks, dif_pos (Or.inl rfl)]
        rfl
      · rw [chunks, dif_neg (by push_neg; exact ⟨hnil, hm⟩), List.flatten_cons]
        rw [ih (payload.drop maxSize)
          (by simp only [List.length_drop]; have := List.length_pos.mpr hnil; omega)]
        exact List.take_append_drop maxSize payload

theorem chunks_length (maxSize : Nat) (hm : maxSize ≠ 0) :
    ∀ (n : Nat) (payload : List Nat), payload.length ≤ n → payload ≠ [] →
      (chunks maxSize payload).length = (payload.length + maxSize - 1) / maxSize := by
  intro n
  induction n with
  | zero =>
      intro payload hp hnil
      exact absurd (List.eq_nil_of_length_eq_zero (by omega)) hnil
  | succ m ih =>
      intro payload hp hnil
      have hmm : 0 < maxSize := Nat.pos_of_ne_zero hm
      have hpos : 0 < payload.length := List.length_pos.mpr hnil
      rw [chunks, dif_neg (by push_neg; exact ⟨hnil, hm⟩), List.length_cons]
      by_cases hd : payload.drop maxSize = []
      · rw [hd, chunks, dif_pos (Or.inl rfl)]
        have hle : payload.length ≤ maxSize := List.drop_eq_nil_iff.mp hd
        have h1 : (payload.length + maxSize - 1) / maxSize = 1 :=
          Nat.div_eq_of_lt_le (by omega) (by omega)
        rw [List.length_nil, h1]
      · have hlt : maxSize < payload.length := by
          by_contra hcon
          exact hd (List.drop_eq_nil_iff.mpr (by omega))
        rw [ih (payload.drop maxSize) (by simp only [List.length_drop]; omega) hd,
          List.length_drop,
          show payload.length + maxSize - 1 = payload.length - 1 + maxSize by omega,
          Nat.add_div_right _ hmm,
          show payload.length - maxSize + maxSize - 1 = payload.length - 1 by omega]

theorem chunks_chunk_le (maxSize : Nat) (hm : maxSize ≠ 0) :
    ∀ (n : Nat) (payload : List Nat), payload.length ≤ n →
      ∀ c ∈ chunks maxSize payload, c.length ≤ maxSize := by
  intro n
  induction n with
  | zero =>
      intro payload hp c hc
      have hnil : payload = [] := List.eq_nil_of_length_eq_zero (by omega)
      subst hnil
      rw [chunks, dif_pos (Or.inl rfl)] at hc
      simp at hc
  | succ m ih =>
      intro payload hp c hc
      by_cases hnil : payload = []
      · subst hnil
        rw [chunks, dif_pos (Or.inl rfl)] at hc
        simp at hc
      · rw [chunks, dif_neg (by push_neg; exact ⟨hnil, hm⟩)] at hc
        rcases List.mem_cons.mp hc with h1 | h2
        · rw [h1]
          simp
        · exact ih (payload.drop maxSize)
            (by simp only [List.length_drop]; have := List.length_pos.mpr hnil; omega) c h2

theorem getD_range_map {α : Type} (d : α) (n : Nat) (g : Nat → α) (idx : Nat)
    (h : idx < n) : ((List.range n).map g).getD idx d = g idx := by
  rw [List.getD_eq_getElem _ _ (by simpa using h)]
  simp

theorem range_map_getD {α : Type} (d : α) :
    ∀ (cs : List α), (List.range cs.length).map (fun i => cs.getD i d) = cs := by
  intro cs
  induction cs with
  | nil => rfl
  | cons c t ih =>
      rw [List.length_cons, List.range_succ_eq_map]
      simp only [List.map_cons, List.map_map]
      refine congrArg₂ _ rfl ?_
      rw [show ((fun i => (c :: t).getD i d) ∘ Nat.succ) = fun i => t.getD i d
        from funext fun i => List.getD_cons_succ]
      exact ih

/-- C8 (spec-modelled `split`): for every payload and `maxSize > 0`, a
payload that fits in one piece yields a single non-fragmented frame with
flags cleared and `totalFragments = 1`; an oversized payload is chunked
into consecutive pieces of at most `maxSize` bytes whose concatenation is
the payload, with `ceil(len/maxSize)` fragments, `FRAGMENT` set on every
produced frame, `FIRST_FRAGMENT` exactly on index 0 and `LAST_FRAGMENT`
exactly on the last index; every frame records its index and the total. -/
theorem splitPayload_spec (slotID : Nat) (nodeID : List Nat)
    (fragmentID maxSize : Nat) (payload : List Nat) (hm : 0 < maxSize) :
    (payload.length ≤ maxSize →
      SplitPayload slotID nodeID fragmentID maxSize payload =
        [NewTDMAFrame slotID nodeID payload] ∧
      (NewTDMAFrame slotID nodeID payload).Flags = 0 ∧
      (NewTDMAFrame slotID nodeID payload).TotalFrags = 1) ∧
    (maxSize < payload.length →
      (SplitPayload slotID nodeID fragmentID maxSize payload).length =
        (payload.length + maxSize - 1) / maxSize ∧
      ((SplitPayload slotID nodeID fragmentID maxSize payload).map
        TDMAFrame.Data).flatten = payload ∧
      ∀ idx, idx < (SplitPayload slotID nodeID fragmentID maxSize payload).length →
        ∀ fr, fr = (SplitPayload slotID nodeID fragmentID maxSize payload).getD idx default →
          fr.Data.length ≤ maxSize ∧
          fr.TotalFrags = (SplitPayload slotID nodeID fragmentID maxSize payload).length ∧
          fr.FragIndex = idx ∧
          fr.Flags &&& FLAG_FRAGMENT ≠ 0 ∧
          (fr.Flags &&& FLAG_FIRST_FRAG ≠ 0 ↔ idx = 0) ∧
          (fr.Flags &&& FLAG_LAST_FRAG ≠ 0 ↔
            idx = (SplitPayload slotID nodeID fragmentID maxSize payload).length - 1)) := by
  constructor
  · intro hle
    refine ⟨?_, rfl, rfl⟩
    unfold SplitPayload
    rw [if_pos hle]
  · intro hgt
    have hmz : maxSize ≠ 0 := by omega
    have hnil : payload ≠ [] := by
      intro he
      rw [he] at hgt
      exact absurd hgt (by simp)
    have hclen : (chunks maxSize payload).length =
        (payload.length + maxSize - 1) / maxSize :=
      chunks_length maxSize hmz payload.length payload (le_refl _) hnil
    have hifneg : ¬ payload.length ≤ maxSize := by omega
    have hsplit : SplitPayload slotID nodeID fragmentID maxSize payload =
        (List.range (chunks maxSize payload).length).map (fun idx =>
          NewFragmentTDMAFrame slotID nodeID fragmentID
            (chunks maxSize payload).length idx
            ((chunks maxSize payload).getD idx [])
            (idx == 0) (idx == (chunks maxSize payload).length - 1)) := by
      unfold SplitPayload
      rw [if_neg hifneg]
    have hslen : (SplitPayload slotID nodeID fragmentID maxSize payload).length =
        (chunks maxSize payload).length := by
      rw [hsplit, List.length_map, List.length_range]
    refine ⟨by rw [hslen, hclen], ?_, ?_⟩
    · rw [hsplit, List.map_map]
      rw [show (TDMAFrame.Data ∘ fun idx =>
          NewFragmentTDMAFrame slotID nodeID fragmentID
            (chunks maxSize payload).length idx
            ((chunks maxSize payload).getD idx [])
            (idx == 0) (idx == (chunks maxSize payload).length - 1)) =
          fun idx => (chunks maxSize payload).getD idx [] from funext fun idx => rfl]
      rw [range_map_getD]
      exact chunks_flatten maxSize hmz payload.length payload (le_refl _)
    · intro idx hidx fr hfr
      rw [hslen] at hidx
      rw [hsplit, getD_range_map _ _ _ _ hidx] at hfr
      rw [hslen]
      subst hfr
      have h2 : 2 ≤ (chunks maxSize payload).length := by
        rw [hclen, Nat.le_div_iff_mul_le hm]
        omega
      refine ⟨?_, rfl, rfl, ?_⟩
      · have hmem : (chunks maxSize payload).getD idx [] ∈ chunks maxSize payload := by
          rw [List.getD_eq_getElem _ _ (by omega)]
          exact List.getElem_mem _
        exact chunks_chunk_le maxSize hmz payload.length payload (le_refl _) _ hmem
      · simp only [NewFragmentTDMAFrame]
        by_cases hb0 : idx = 0 <;>
          by_cases hbl : idx = (chunks maxSize payload).length - 1
        · omega
        · subst hb0
          simp [hbl, FLAG_FRAGMENT, FLAG_FIRST_FRAG, FLAG_LAST_FRAG]
          decide
        · subst hbl
          simp [hb0, FLAG_FRAGMENT, FLAG_FIRST_FRAG, FLAG_LAST_FRAG]
          decide
        · simp [hb0, hbl, FLAG_FRAGMENT, FLAG_FIRST_FRAG, FLAG_LAST_FRAG]

/-- C8 witness: splitting a 5-byte payload with `maxSize = 2` yields
`ceil(5/2) = 3` fragments whose payloads concatenate to the original. -/
theorem splitPayload_spec_witness :
    (SplitPayload 1 [65] 9 2 [1, 2, 3, 4, 5]).length =
      (([1, 2, 3, 4, 5] : List Nat).length + 2 - 1) / 2 ∧
    ((SplitPayload 1 [65] 9 2 [1, 2, 3, 4, 5]).map TDMAFrame.Data).flatten =
      [1, 2, 3, 4, 5] :=
  ⟨((splitPayload_spec 1 [65] 9 2 [1, 2, 3, 4, 5] (by decide)).2 (by decide)).1,
   ((splitPayload_spec 1 [65] 9 2 [1, 2, 3, 4, 5] (by decide)).2 (by decide)).2.1⟩
